import Mathlib

/-!
Verification development for the Semantic Image Selection Engine of the
presentation service.  The Python sources are shallowly embedded:

* `src/services/clip_client.py` — `compute_similarity`, the image-embedding
  cache discipline of `get_image_embedding` / `get_image_embeddings_batch`.
* `src/services/image_matcher.py` — `pick_best_image_for_slide`.
* `src/app.py` — `can_make_api_call`, `fetch_images_from_pexels`,
  `fetch_images_from_unsplash`, `get_images`, `translate_for_image_search`,
  `get_used_images_for_user`, `cleanup_old_used_images`, and the candidate
  acquisition logic of `search_image_legacy_mode` /
  `search_image_advanced_mode`.

Side effects that the claims mention (network responses, CLIP model
availability, the embedding model itself, wall-clock time) are passed in as
explicit oracle parameters; machine floats are modelled by `ℚ`.
-/

/-! ## clip_client.py -/

/-- Embedding vectors (`np.ndarray` of floats) are modelled as lists of `ℚ`. -/
abbrev Emb := List ℚ

/-- `np.dot` on two 1-D vectors of the same length. -/
def dotProd (e1 e2 : Emb) : ℚ :=
  (List.zipWith (· * ·) e1 e2).sum

/-- `compute_similarity` (clip_client.py:392-416): dot product clamped to
`[0, 1]`.  `np.dot` raises on mismatched shapes and the `except` branch
returns `0.0`, hence the length guard. -/
def compute_similarity (e1 e2 : Emb) : ℚ :=
  if e1.length = e2.length then max 0 (min 1 (dotProd e1 e2)) else 0

theorem compute_similarity_nonneg (e1 e2 : Emb) : 0 ≤ compute_similarity e1 e2 := by
  unfold compute_similarity
  split
  · exact le_max_left 0 _
  · exact le_refl 0

theorem compute_similarity_le_one (e1 e2 : Emb) : compute_similarity e1 e2 ≤ 1 := by
  unfold compute_similarity
  split
  · exact max_le (by norm_num) (min_le_left _ _)
  · norm_num

/-! ## image_matcher.py -/

/-- A candidate image dict.  Python dicts are accessed with `.get`, so every
field is optional; the fetcher fills `url`, `author`, `source`,
`source_link`, `attribution`, leaving `description` / `alt` absent unless a
pipeline adds them. -/
structure ImageDict where
  url : Option String := none
  author : Option String := none
  source : Option String := none
  source_link : Option String := none
  attribution : Option String := none
  description : Option String := none
  alt : Option String := none
deriving DecidableEq, Repr

/-- Python truthiness of an optional string: `None` and `''` are falsy. -/
def truthy : Option String → Bool
  | none => false
  | some s => s ≠ ""

/-- `img.get('url') in exclude_images`: a missing URL is never a member of a
list of strings. -/
def urlMem : Option String → List String → Bool
  | none, _ => false
  | some u, l => u ∈ l

/-- image_matcher.py:108-115 — description fallback chain
`description or alt or attribution or slide_title` (Python `or`). -/
def candidate_description (slide_title : String) (c : ImageDict) : String :=
  if truthy c.description then c.description.getD ""
  else if truthy c.alt then c.alt.getD ""
  else if truthy c.attribution then c.attribution.getD ""
  else slide_title

/-- image_matcher.py:73-76 — drop candidates whose URL is excluded. -/
def filtered_candidates (image_candidates : List ImageDict)
    (exclude_images : Option (List String)) : List ImageDict :=
  image_candidates.filter (fun img => ! urlMem img.url (exclude_images.getD []))

/-- image_matcher.py:88 — the slide context string
`f"{slide_title}. {slide_content[:200]}"`. -/
def slide_context (slide_title slide_content : String) : String :=
  slide_title ++ ". " ++ slide_content.take 200

/-- image_matcher.py:105-146 — embed each candidate description (failed
embeddings become `np.zeros(512)`) and score it against the context
embedding. -/
def scored_candidates (text_emb : String → Option Emb) (slide_title : String)
    (context_embedding : Emb) (candidates : List ImageDict) :
    List (ImageDict × ℚ) :=
  let descriptions := candidates.map (candidate_description slide_title)
  let desc_embeddings :=
    descriptions.map (fun d => (text_emb d).getD (List.replicate 512 0))
  (candidates.zip (descriptions.zip desc_embeddings)).map
    (fun p => (p.1, compute_similarity context_embedding p.2.2))

/-- Ordering used by `scored_candidates.sort(key=..., reverse=True)`:
descending similarity. -/
def simGE (a b : ImageDict × ℚ) : Prop := b.2 ≤ a.2

instance : DecidableRel simGE := fun a b => inferInstanceAs (Decidable (b.2 ≤ a.2))

instance : IsTotal (ImageDict × ℚ) simGE := ⟨fun a b => le_total b.2 a.2⟩

instance : IsTrans (ImageDict × ℚ) simGE := ⟨fun _ _ _ h1 h2 => le_trans h2 h1⟩

/-- Result of one `pick_best_image_for_slide` run: the returned value and the
number of `compute_similarity` evaluations the run performed. -/
structure PickRun where
  result : Option ImageDict
  simsComputed : ℕ
deriving DecidableEq, Repr

/-- image_matcher.py:148-178 — sort the scored list by descending similarity
and apply the threshold gate to the best candidate.  (The source returns a
copy of the winning dict with an extra `_clip_similarity` metadata key; the
copy leaves every original field, in particular the URL, unchanged, so the
model returns the candidate itself.) -/
def pick_from_scored (similarity_threshold : ℚ)
    (scored : List (ImageDict × ℚ)) : PickRun :=
  match scored.insertionSort simGE with
  | [] => ⟨none, scored.length⟩
  | best :: _ =>
      if best.2 < similarity_threshold then ⟨none, scored.length⟩
      else ⟨some best.1, scored.length⟩

/-- image_matcher.py:31-178 — `pick_best_image_for_slide`.  Oracles:
`clip_available` is `is_clip_available()`, `text_emb` is
`get_text_embedding` (LRU caching does not change its value). -/
def pick_best_image_for_slide (clip_available : Bool)
    (text_emb : String → Option Emb)
    (slide_title slide_content : String) (image_candidates : List ImageDict)
    (exclude_images : Option (List String)) (similarity_threshold : ℚ) :
    PickRun :=
  if image_candidates.isEmpty then ⟨none, 0⟩
  else if (filtered_candidates image_candidates exclude_images).isEmpty then
    ⟨none, 0⟩
  else if ! clip_available then
    ⟨(filtered_candidates image_candidates exclude_images).head?, 0⟩
  else
    match text_emb (slide_context slide_title slide_content) with
    | none => ⟨(filtered_candidates image_candidates exclude_images).head?, 0⟩
    | some context_embedding =>
        pick_from_scored similarity_threshold
          (scored_candidates text_emb slide_title context_embedding
            (filtered_candidates image_candidates exclude_images))

/-! ### Helper lemmas about the matcher -/

theorem scored_candidates_length (text_emb : String → Option Emb)
    (slide_title : String) (ce : Emb) (cs : List ImageDict) :
    (scored_candidates text_emb slide_title ce cs).length = cs.length := by
  unfold scored_candidates
  simp only [List.length_map, List.length_zip, Nat.min_self]

theorem mem_of_scored {text_emb : String → Option Emb} {slide_title : String}
    {ce : Emb} {cs : List ImageDict} {b : ImageDict × ℚ}
    (hb : b ∈ scored_candidates text_emb slide_title ce cs) : b.1 ∈ cs := by
  unfold scored_candidates at hb
  simp only [List.mem_map] at hb
  obtain ⟨p, hp, rfl⟩ := hb
  exact (List.of_mem_zip hp).1

theorem scored_nonneg {text_emb : String → Option Emb} {slide_title : String}
    {ce : Emb} {cs : List ImageDict} {b : ImageDict × ℚ}
    (hb : b ∈ scored_candidates text_emb slide_title ce cs) : 0 ≤ b.2 := by
  unfold scored_candidates at hb
  simp only [List.mem_map] at hb
  obtain ⟨p, _, rfl⟩ := hb
  exact compute_similarity_nonneg _ _

theorem scored_le_one {text_emb : String → Option Emb} {slide_title : String}
    {ce : Emb} {cs : List ImageDict} {b : ImageDict × ℚ}
    (hb : b ∈ scored_candidates text_emb slide_title ce cs) : b.2 ≤ 1 := by
  unfold scored_candidates at hb
  simp only [List.mem_map] at hb
  obtain ⟨p, _, rfl⟩ := hb
  exact compute_similarity_le_one _ _

theorem mem_filtered_not_excluded {image_candidates : List ImageDict}
    {exclude_images : Option (List String)} {c : ImageDict}
    (hc : c ∈ filtered_candidates image_candidates exclude_images) :
    urlMem c.url (exclude_images.getD []) = false := by
  unfold filtered_candidates at hc
  have h2 : (! urlMem c.url (exclude_images.getD [])) = true :=
    (List.mem_filter.mp hc).2
  cases hu : urlMem c.url (exclude_images.getD [])
  · rfl
  · rw [hu] at h2
    exact absurd h2 (by decide)

theorem pick_from_scored_eq_nil (θ : ℚ) (scored : List (ImageDict × ℚ))
    (h : scored.insertionSort simGE = []) :
    pick_from_scored θ scored = ⟨none, scored.length⟩ := by
  unfold pick_from_scored
  rw [h]

theorem pick_from_scored_eq_cons (θ : ℚ) (scored : List (ImageDict × ℚ))
    (best : ImageDict × ℚ) (rest : List (ImageDict × ℚ))
    (h : scored.insertionSort simGE = best :: rest) :
    pick_from_scored θ scored =
      if best.2 < θ then ⟨none, scored.length⟩
      else ⟨some best.1, scored.length⟩ := by
  unfold pick_from_scored
  rw [h]

theorem head_insertionSort_mem {scored : List (ImageDict × ℚ)}
    {best : ImageDict × ℚ} {rest : List (ImageDict × ℚ)}
    (h : scored.insertionSort simGE = best :: rest) : best ∈ scored := by
  have h1 : best ∈ scored.insertionSort simGE := by
    rw [h]
    exact List.mem_cons_self _ _
  exact (List.perm_insertionSort simGE scored).mem_iff.mp h1

theorem pick_from_scored_result_mem {θ : ℚ} {scored : List (ImageDict × ℚ)}
    {c : ImageDict} (h : (pick_from_scored θ scored).result = some c) :
    ∃ b ∈ scored, b.1 = c := by
  rcases hs : scored.insertionSort simGE with _ | ⟨best, rest⟩
  · rw [pick_from_scored_eq_nil θ scored hs] at h
    exact Option.noConfusion h
  · rw [pick_from_scored_eq_cons θ scored best rest hs] at h
    split at h
    · exact Option.noConfusion h
    · have h' : some best.1 = some c := h
      exact ⟨best, head_insertionSort_mem hs, Option.some.inj h'⟩

theorem filtered_ne_nil_of_not_isEmpty {image_candidates : List ImageDict}
    {exclude_images : Option (List String)}
    (hne : (filtered_candidates image_candidates exclude_images).isEmpty = false) :
    filtered_candidates image_candidates exclude_images ≠ [] := by
  intro hnil
  rw [hnil] at hne
  exact absurd hne (by decide)

/-! ### Claims C1, C2, C3, C10 -/

/-- Claim C1: for every candidate list, exclusion list and threshold, if
`pick_best_image_for_slide` returns a non-None candidate, that candidate's
URL is not a member of the exclusion list, on every return path (CLIP
unavailable fallback, context-embedding-failure fallback, scored best). -/
theorem pick_best_never_returns_excluded (clip_available : Bool)
    (text_emb : String → Option Emb) (slide_title slide_content : String)
    (image_candidates : List ImageDict) (exclude_images : Option (List String))
    (similarity_threshold : ℚ) (c : ImageDict)
    (h : (pick_best_image_for_slide clip_available text_emb slide_title
        slide_content image_candidates exclude_images
        similarity_threshold).result = some c) :
    urlMem c.url (exclude_images.getD []) = false := by
  unfold pick_best_image_for_slide at h
  split at h
  · exact Option.noConfusion h
  · split at h
    · exact Option.noConfusion h
    · split at h
      · simp only at h
        have hc : c ∈ filtered_candidates image_candidates exclude_images :=
          List.mem_of_mem_head? h
        exact mem_filtered_not_excluded hc
      · rcases hemb : text_emb (slide_context slide_title slide_content) with
          _ | ce
        · rw [hemb] at h
          simp only at h
          have hc : c ∈ filtered_candidates image_candidates exclude_images :=
            List.mem_of_mem_head? h
          exact mem_filtered_not_excluded hc
        · rw [hemb] at h
          simp only at h
          obtain ⟨b, hb, rfl⟩ := pick_from_scored_result_mem h
          exact mem_filtered_not_excluded (mem_of_scored hb)

/-- Witness for C1: a concrete run returning a candidate whose URL is not in
the exclusion list. -/
theorem pick_best_never_returns_excluded_witness :
    urlMem ({ url := some "https://x/a.jpg" } : ImageDict).url
      ((some ["https://x/b.jpg"] : Option (List String)).getD []) = false := by
  exact pick_best_never_returns_excluded false (fun _ => none) "t" "c"
    [{ url := some "https://x/a.jpg" }] (some ["https://x/b.jpg"]) 0
    { url := some "https://x/a.jpg" } (by decide)

/-- Claim C2: in strict mode, when CLIP is available, the context embedding
succeeds, at least one candidate survives exclusion, and every scored
similarity (so in particular the highest) is strictly below the threshold,
`pick_best_image_for_slide` returns `None`. -/
theorem strict_below_threshold_returns_none
    (text_emb : String → Option Emb) (slide_title slide_content : String)
    (image_candidates : List ImageDict) (exclude_images : Option (List String))
    (similarity_threshold : ℚ) (ce : Emb)
    (hne : (filtered_candidates image_candidates exclude_images).isEmpty = false)
    (hce : text_emb (slide_context slide_title slide_content) = some ce)
    (hlow : ∀ b ∈ scored_candidates text_emb slide_title ce
        (filtered_candidates image_candidates exclude_images),
        b.2 < similarity_threshold) :
    (pick_best_image_for_slide true text_emb slide_title slide_content
      image_candidates exclude_images similarity_threshold).result = none := by
  unfold pick_best_image_for_slide
  split
  · rfl
  · rw [if_neg (by simp [hne]), if_neg (by simp), hce]
    simp only
    rcases hs : (scored_candidates text_emb slide_title ce
        (filtered_candidates image_candidates exclude_images)).insertionSort simGE
      with _ | ⟨best, rest⟩
    · rw [pick_from_scored_eq_nil _ _ hs]
    · rw [pick_from_scored_eq_cons _ _ best rest hs,
        if_pos (hlow best (head_insertionSort_mem hs))]

/-- Witness for C2: one non-excluded candidate, every similarity is at most
`1`, which is below threshold `2`, so the strict gate returns `None`. -/
theorem strict_below_threshold_returns_none_witness :
    (pick_best_image_for_slide true (fun _ => some [1]) "t" "c"
      [{ url := some "https://x/a.jpg", description := some "d" }] none
      2).result = none := by
  exact strict_below_threshold_returns_none (fun _ => some [1]) "t" "c"
    [{ url := some "https://x/a.jpg", description := some "d" }] none 2 [1]
    (by decide) rfl
    (fun b hb => lt_of_le_of_lt (scored_le_one hb) (by norm_num))

/-- Claim C3: in soft mode (threshold `0.0`), whenever at least one candidate
survives exclusion filtering, `pick_best_image_for_slide` returns a non-None
candidate, for every CLIP availability state and every embedding oracle. -/
theorem soft_mode_returns_some (clip_available : Bool)
    (text_emb : String → Option Emb) (slide_title slide_content : String)
    (image_candidates : List ImageDict) (exclude_images : Option (List String))
    (hne : (filtered_candidates image_candidates exclude_images).isEmpty = false) :
    ((pick_best_image_for_slide clip_available text_emb slide_title
      slide_content image_candidates exclude_images 0).result).isSome = true := by
  have hfne : filtered_candidates image_candidates exclude_images ≠ [] :=
    filtered_ne_nil_of_not_isEmpty hne
  have hhead : ((filtered_candidates image_candidates exclude_images).head?).isSome
      = true := by
    rcases hq : (filtered_candidates image_candidates exclude_images).head? with
      _ | a
    · exact absurd (List.head?_eq_none_iff.mp hq) hfne
    · rfl
  unfold pick_best_image_for_slide
  split
  · rename_i hempty
    exact absurd (by simp [filtered_candidates, List.isEmpty_iff.mp hempty]) hfne
  · rw [if_neg (by simp [hne])]
    split
    · exact hhead
    · rcases hemb : text_emb (slide_context slide_title slide_content) with _ | ce
      · simpa using hhead
      · simp only
        rcases hs : (scored_candidates text_emb slide_title ce
            (filtered_candidates image_candidates exclude_images)).insertionSort
              simGE with _ | ⟨best, rest⟩
        · exfalso
          have hlen := (List.perm_insertionSort simGE
            (scored_candidates text_emb slide_title ce
              (filtered_candidates image_candidates exclude_images))).length_eq
          rw [hs, scored_candidates_length] at hlen
          exact absurd hlen.symm (List.length_pos.mpr hfne).ne'
        · rw [pick_from_scored_eq_cons _ _ best rest hs,
            if_neg (not_lt.mpr (scored_nonneg (head_insertionSort_mem hs)))]
          rfl

/-- Witness for C3: soft mode returns a candidate even when every embedding
is unavailable. -/
theorem soft_mode_returns_some_witness :
    ((pick_best_image_for_slide true (fun _ => none) "t" "c"
      [{ url := some "https://x/a.jpg" }] none 0).result).isSome = true := by
  exact soft_mode_returns_some true (fun _ => none) "t" "c"
    [{ url := some "https://x/a.jpg" }] none (by decide)

/-- Claim C10: when CLIP is available but embedding the slide context fails,
`pick_best_image_for_slide` returns the first non-excluded candidate with
zero similarity computations, for every threshold — so strict mode can
return a candidate whose similarity was never checked. -/
theorem context_embedding_failure_returns_first
    (text_emb : String → Option Emb) (slide_title slide_content : String)
    (image_candidates : List ImageDict) (exclude_images : Option (List String))
    (similarity_threshold : ℚ)
    (hctx : text_emb (slide_context slide_title slide_content) = none)
    (hne : (filtered_candidates image_candidates exclude_images).isEmpty = false) :
    pick_best_image_for_slide true text_emb slide_title slide_content
        image_candidates exclude_images similarity_threshold =
      ⟨(filtered_candidates image_candidates exclude_images).head?, 0⟩ ∧
    ((filtered_candidates image_candidates exclude_images).head?).isSome = true := by
  have hfne : filtered_candidates image_candidates exclude_images ≠ [] :=
    filtered_ne_nil_of_not_isEmpty hne
  constructor
  · unfold pick_best_image_for_slide
    split
    · rename_i hempty
      exact absurd (by simp [filtered_candidates, List.isEmpty_iff.mp hempty]) hfne
    · rw [if_neg (by simp [hne]), if_neg (by simp), hctx]
  · rcases hq : (filtered_candidates image_candidates exclude_images).head? with
      _ | a
    · exact absurd (List.head?_eq_none_iff.mp hq) hfne
    · rfl

/-- Witness for C10: concrete strict-mode run where the context embedding
fails and the first candidate is returned unchecked. -/
theorem context_embedding_failure_returns_first_witness :
    pick_best_image_for_slide true (fun _ => none) "t" "c"
        [{ url := some "https://x/a.jpg" }] none 100 =
      ⟨(filtered_candidates [{ url := some "https://x/a.jpg" }] none).head?, 0⟩ ∧
    ((filtered_candidates [{ url := some "https://x/a.jpg" }] none).head?).isSome
      = true := by
  exact context_embedding_failure_returns_first (fun _ => none) "t" "c"
    [{ url := some "https://x/a.jpg" }] none 100 rfl (by decide)

/-! ### Image-embedding cache (clip_client.py)

The persistent image cache `_image_embedding_cache` is a Python dict; it is
modelled as an insertion-ordered association list, which matches Python's
dict semantics: assignment of a fresh key appends, assignment of an existing
key updates in place, and `next(iter(d))` is the first (oldest) entry. -/

/-- clip_client.py:32 — `CACHE_MAX_ENTRIES = 500`. -/
def CACHE_MAX_ENTRIES : ℕ := 500

/-- `url in _image_embedding_cache`. -/
def cacheHas (cache : List (String × Emb)) (url : String) : Bool :=
  cache.any (fun p => p.1 = url)

/-- Python dict assignment `_image_embedding_cache[url] = embedding`. -/
def cacheInsert (cache : List (String × Emb)) (url : String) (e : Emb) :
    List (String × Emb) :=
  if cacheHas cache url then
    cache.map (fun p => if p.1 = url then (url, e) else p)
  else cache ++ [(url, e)]

/-- clip_client.py:223-295 — cache evolution of one `get_image_embedding`
call with `use_cache=True`.  The oracle `embed` models
download+preprocess+inference; `none` is any failure (non-200 download,
exception).  On a cache hit or a failure the cache is unchanged; on success
the embedding is stored (line 276) and, if the cap is now exceeded, the
first (oldest) entry `next(iter(_image_embedding_cache))` is deleted
(lines 279-282). -/
def get_image_embedding_cache (embed : String → Option Emb)
    (cache : List (String × Emb)) (url : String) : List (String × Emb) :=
  if cacheHas cache url then cache
  else
    match embed url with
    | none => cache
    | some e =>
        let c1 := cacheInsert cache url e
        if CACHE_MAX_ENTRIES < c1.length then c1.tail else c1

/-- clip_client.py:298-389 — cache evolution of one
`get_image_embeddings_batch` call with `use_cache=True`: URLs already cached
are skipped (lines 324-328), every successfully embedded remaining URL is
stored (lines 371-374), and no entry is ever evicted — the batch path has no
cap check. -/
def get_image_embeddings_batch_cache (embed : String → Option Emb)
    (cache : List (String × Emb)) (urls : List String) : List (String × Emb) :=
  (urls.filter (fun u => ! cacheHas cache u)).foldl
    (fun c u =>
      match embed u with
      | none => c
      | some e => cacheInsert c u e) cache

/-- An image-embedding operation with caching enabled. -/
inductive CacheOp where
  | single (url : String)
  | batch (urls : List String)

/-- Run a sequence of image-embedding operations against the cache. -/
def runCacheOps (embed : String → Option Emb) :
    List (String × Emb) → List CacheOp → List (String × Emb)
  | cache, [] => cache
  | cache, .single url :: ops =>
      runCacheOps embed (get_image_embedding_cache embed cache url) ops
  | cache, .batch urls :: ops =>
      runCacheOps embed (get_image_embeddings_batch_cache embed cache urls) ops

/-- Embedding oracle that always succeeds (with the empty vector). -/
def embedConst : String → Option Emb := fun _ => some []

theorem cacheInsert_fresh {cache : List (String × Emb)} {url : String}
    {e : Emb} (h : cacheHas cache url = false) :
    cacheInsert cache url e = cache ++ [(url, e)] := by
  unfold cacheInsert
  rw [h]
  simp

theorem cacheHas_append (c1 c2 : List (String × Emb)) (url : String) :
    cacheHas (c1 ++ c2) url = (cacheHas c1 url || cacheHas c2 url) := by
  unfold cacheHas
  exact List.any_append

theorem batch_const_foldl_length (urls : List String) :
    ∀ cache : List (String × Emb), urls.Nodup →
    (∀ u ∈ urls, cacheHas cache u = false) →
    (urls.foldl
      (fun c u =>
        match embedConst u with
        | none => c
        | some e => cacheInsert c u e) cache).length =
      cache.length + urls.length := by
  induction urls with
  | nil => intro cache _ _; simp
  | cons u us ih =>
      intro cache hnodup hfresh
      have hu : cacheHas cache u = false := hfresh u (List.mem_cons_self _ _)
      simp only [List.foldl_cons]
      rw [show (match embedConst u with
            | none => cache
            | some e => cacheInsert cache u e) = cache ++ [(u, ([] : Emb))] from
          cacheInsert_fresh hu]
      have hfresh' : ∀ v ∈ us, cacheHas (cache ++ [(u, ([] : Emb))]) v = false := by
        intro v hv
        rw [cacheHas_append]
        have h1 : cacheHas cache v = false := hfresh v (List.mem_cons_of_mem _ hv)
        have hne : v ≠ u := by
          intro hvu
          subst hvu
          exact (List.nodup_cons.mp hnodup).1 hv
        have h2 : cacheHas [(u, ([] : Emb))] v = false := by
          unfold cacheHas
          simp [hne.symm]
        rw [h1, h2]
        rfl
      rw [ih (cache ++ [(u, ([] : Emb))]) (List.nodup_cons.mp hnodup).2 hfresh']
      simp only [List.length_append, List.length_cons, List.length_nil]
      omega

/-- 501 pairwise-distinct URLs (strings of 1..501 letters). -/
def cacheUrls501 : List String :=
  (List.range 501).map (fun n => String.mk (List.replicate (n + 1) 'a'))

theorem cacheUrls501_nodup : cacheUrls501.Nodup := by
  unfold cacheUrls501
  refine List.Nodup.map ?_ (List.nodup_range 501)
  intro a b h
  have h2 : List.replicate (a + 1) 'a' = List.replicate (b + 1) 'a' :=
    congrArg String.data h
  have h3 := congrArg List.length h2
  simp only [List.length_replicate] at h3
  omega

/-- Claim C4 (counterexample): a single batch embedding call with 501 fresh
URLs, all of which embed successfully, grows the cache from empty to 501
entries — strictly above `CACHE_MAX_ENTRIES` — because the batch path never
evicts. -/
theorem batch_cache_exceeds_cap :
    CACHE_MAX_ENTRIES <
      (runCacheOps embedConst [] [CacheOp.batch cacheUrls501]).length := by
  have h1 : runCacheOps embedConst [] [CacheOp.batch cacheUrls501] =
      get_image_embeddings_batch_cache embedConst [] cacheUrls501 := rfl
  have hfresh : ∀ u ∈ cacheUrls501, cacheHas [] u = false := by
    intro u _
    rfl
  have h2 : (cacheUrls501.filter (fun u => ! cacheHas [] u)) = cacheUrls501 :=
    List.filter_eq_self.mpr (fun u hu => by rw [hfresh u hu]; rfl)
  have h3 : (get_image_embeddings_batch_cache embedConst [] cacheUrls501).length
      = 501 := by
    unfold get_image_embeddings_batch_cache
    rw [h2, batch_const_foldl_length cacheUrls501 [] cacheUrls501_nodup hfresh]
    simp [cacheUrls501]
  rw [h1, h3]
  norm_num [CACHE_MAX_ENTRIES]

theorem get_image_embedding_cache_le
    (embed : String → Option Emb) (cache : List (String × Emb)) (url : String)
    (h : cache.length ≤ CACHE_MAX_ENTRIES) :
    (get_image_embedding_cache embed cache url).length ≤ CACHE_MAX_ENTRIES := by
  unfold get_image_embedding_cache
  split
  · exact h
  · rename_i hfresh
    rcases he : embed url with _ | e
    · exact h
    · simp only
      rw [cacheInsert_fresh (by simpa using hfresh)]
      split
      · rename_i hgt
        simp only [List.length_tail, List.length_append, List.length_cons,
          List.length_nil]
        omega
      · rename_i hle
        simp only [List.length_append, List.length_cons, List.length_nil] at hle ⊢
        omega

/-- Claim C4 (amended): with only single `get_image_embedding` calls the cap
is maintained — a cache at or below `CACHE_MAX_ENTRIES` entries stays at or
below it, and an insertion into a full cache evicts exactly the oldest
(first-inserted) entry.  Batch calls (see `batch_cache_exceeds_cap`) perform
no eviction and can exceed the cap. -/
theorem single_cache_ops_respect_cap :
    (∀ (embed : String → Option Emb) (cache : List (String × Emb))
        (urls : List String), cache.length ≤ CACHE_MAX_ENTRIES →
      (runCacheOps embed cache (urls.map CacheOp.single)).length ≤
        CACHE_MAX_ENTRIES) ∧
    (∀ (embed : String → Option Emb) (cache : List (String × Emb))
        (url : String) (e : Emb),
      CACHE_MAX_ENTRIES ≤ cache.length → cacheHas cache url = false →
      embed url = some e →
      get_image_embedding_cache embed cache url = cache.tail ++ [(url, e)]) := by
  constructor
  · intro embed cache urls
    induction urls generalizing cache with
    | nil => intro h; exact h
    | cons u us ih =>
        intro h
        simp only [List.map_cons, runCacheOps]
        exact ih _ (get_image_embedding_cache_le embed cache u h)
  · intro embed cache url e hlen hfresh he
    unfold get_image_embedding_cache
    rw [hfresh]
    simp only [Bool.false_eq_true, if_false, he]
    rw [cacheInsert_fresh hfresh]
    have hcne : cache ≠ [] := by
      intro hnil
      rw [hnil] at hlen
      simp [CACHE_MAX_ENTRIES] at hlen
    have hgt : CACHE_MAX_ENTRIES < (cache ++ [(url, e)]).length := by
      simp only [List.length_append, List.length_cons, List.length_nil]
      omega
    rw [if_pos hgt]
    rcases cache with _ | ⟨p, rest⟩
    · exact absurd rfl hcne
    · rfl

/-- 500 pairwise-distinct cache entries (keys of 1..500 letters). -/
def fullCache500 : List (String × Emb) :=
  (List.range 500).map (fun n => (String.mk (List.replicate (n + 1) 'a'), []))

/-- Witness for the amended C4: one concrete single-call sequence stays under
the cap, and one concrete insertion into a full 500-entry cache drops
exactly the oldest entry. -/
theorem single_cache_ops_respect_cap_witness :
    (runCacheOps embedConst [] (["u"].map CacheOp.single)).length ≤
      CACHE_MAX_ENTRIES ∧
    get_image_embedding_cache embedConst fullCache500 "" =
      fullCache500.tail ++ [("", [])] := by
  constructor
  · exact single_cache_ops_respect_cap.1 embedConst [] ["u"] (by decide)
  · refine single_cache_ops_respect_cap.2 embedConst fullCache500 "" [] ?_ ?_ rfl
    · simp [fullCache500, CACHE_MAX_ENTRIES]
    · unfold fullCache500 cacheHas
      rw [List.any_eq_false]
      intro p hp
      rcases List.mem_map.mp hp with ⟨n, _, rfl⟩
      simp only [decide_eq_true_eq]
      intro hcontra
      have h2 : List.replicate (n + 1) 'a' = [] := congrArg String.data hcontra
      have h3 := congrArg List.length h2
      simp at h3

/-! ### Rate limiter and provider fetchers (app.py)

`time.time()` values are modelled as `ℤ` (no claim depends on
sub-second granularity).  HTTP outcomes of successive
attempts are an oracle `ℕ → HttpAttempt _` indexed by the attempt number. -/

/-- app.py:2104 — `MAX_CALLS_PER_MINUTE` is 50 for both providers. -/
def MAX_CALLS_PER_MINUTE : ℕ := 50

/-- app.py:2106-2127 — `can_make_api_call`: prune entries older than 60
seconds, reject (without recording) when the pruned window is at the
budget, otherwise record the current time.  Returns the decision and the
updated window `API_CALL_TIMES[service]`. -/
def can_make_api_call (window : List ℤ) (now : ℤ) : Bool × List ℤ :=
  let pruned := window.filter (fun t => now - t < 60)
  if MAX_CALLS_PER_MINUTE ≤ pruned.length then (false, pruned)
  else (true, pruned ++ [now])

/-- Outcome of one HTTP search request: timeout, any other exception, or a
response with a status code and the parsed photo list of the body. -/
inductive HttpAttempt (Photo : Type) where
  | timeout
  | exn
  | resp (status : ℕ) (photos : List Photo)

/-- Fields of one Pexels photo object used by the normalizer
(app.py:2295-2302). -/
structure PexelsPhoto where
  src_large : String
  photographer : String
  url : Option String
deriving DecidableEq, Repr

/-- app.py:2296-2302 — map a Pexels photo to the unified candidate shape. -/
def normalize_pexels (p : PexelsPhoto) : ImageDict :=
  { url := some p.src_large
    author := some p.photographer
    source := some "Pexels"
    source_link := some (p.url.getD "https://www.pexels.com")
    attribution := some ("Photo by " ++ p.photographer ++ " on Pexels") }

/-- Fields of one Unsplash photo object used by the normalizer
(app.py:2382-2389). -/
structure UnsplashPhoto where
  urls_regular : String
  user_name : String
  links_html : String
deriving DecidableEq, Repr

/-- app.py:2383-2389 — map an Unsplash photo to the unified candidate
shape. -/
def normalize_unsplash (p : UnsplashPhoto) : ImageDict :=
  { url := some p.urls_regular
    author := some p.user_name
    source := some "Unsplash"
    source_link := some p.links_html
    attribution := some ("Photo by " ++ p.user_name ++ " on Unsplash") }

/-- app.py:2266-2331 / 2353-2418 — the `for attempt in range(retries)` body,
textually identical in `fetch_images_from_pexels` and
`fetch_images_from_unsplash` up to the photo-field mapping:
  * 200 with a non-empty photo list → normalize the first `count` photos;
  * 200 with no photos → empty list;
  * 429 → retry (`continue`) unless this was the last attempt;
  * any other status → empty list, no retry;
  * `Timeout` → retry (`continue`) unless this was the last attempt;
  * any other exception → empty list, no retry. -/
def provider_attempt_loop {Photo : Type} (normalize : Photo → ImageDict)
    (count : ℕ) (attempts : ℕ → HttpAttempt Photo) (retries : ℕ) :
    List ℕ → List ImageDict
  | [] => []
  | i :: rest =>
      match attempts i with
      | .resp status photos =>
          if status = 200 then
            if 0 < photos.length then (photos.take count).map normalize else []
          else if status = 429 then
            if i < retries - 1 then
              provider_attempt_loop normalize count attempts retries rest
            else []
          else []
      | .timeout =>
          if i < retries - 1 then
            provider_attempt_loop normalize count attempts retries rest
          else []
      | .exn => []

/-- app.py:2237-2331 — `fetch_images_from_pexels`.  `key_configured` models
`PEXELS_API_KEY` being set; the rate-limit window is threaded explicitly.
Returns the candidate list and the updated window. -/
def fetch_images_from_pexels (key_configured : Bool)
    (attempts : ℕ → HttpAttempt PexelsPhoto) (window : List ℤ) (now : ℤ)
    (count : ℕ := 1) (retries : ℕ := 2) : List ImageDict × List ℤ :=
  if ! key_configured then ([], window)
  else
    let cw := can_make_api_call window now
    if ! cw.1 then ([], cw.2)
    else
      (provider_attempt_loop normalize_pexels count attempts retries
        (List.range retries), cw.2)

/-- app.py:2334-2418 — `fetch_images_from_unsplash`, same structure with
`UNSPLASH_ACCESS_KEY`. -/
def fetch_images_from_unsplash (key_configured : Bool)
    (attempts : ℕ → HttpAttempt UnsplashPhoto) (window : List ℤ) (now : ℤ)
    (count : ℕ := 1) (retries : ℕ := 2) : List ImageDict × List ℤ :=
  if ! key_configured then ([], window)
  else
    let cw := can_make_api_call window now
    if ! cw.1 then ([], cw.2)
    else
      (provider_attempt_loop normalize_unsplash count attempts retries
        (List.range retries), cw.2)

/-! ### Claim C5 -/

/-- Claim C5 (counterexample): the claim says every attempted provider call
appends a timestamp to the window, including budget-rejected calls, and once
per retry attempt.  In the code a budget-rejected call appends nothing
(app.py:2121-2123 returns before the append), and a retried call appends
only once (the budget check sits before the retry loop): with a full window
of 50 fresh timestamps the rejected call leaves the window at exactly those
50 entries, and a 429-then-200 call starting from an empty window records
exactly one timestamp. -/
theorem rejected_call_records_no_timestamp :
    ((fetch_images_from_pexels true (fun _ => HttpAttempt.timeout)
        (List.replicate 50 (0 : ℤ)) 1 1 2).2 = List.replicate 50 (0 : ℤ)) ∧
    ((fetch_images_from_pexels true
        (fun i => if i = 0 then HttpAttempt.resp 429 []
          else HttpAttempt.resp 200 [⟨"https://img/a.jpg", "Alice", none⟩])
        [] 7 1 2).2 = [(7 : ℤ)]) := by
  constructor
  · decide
  · decide

/-- Claim C5 (amended): a fetch invocation updates the provider's rate-limit
window exactly as follows — with no credentials the window is untouched;
with credentials the window is pruned to entries younger than 60 seconds and
then exactly one timestamp is appended when the pruned window is under the
per-minute budget, while a budget-rejected call appends nothing; retried
attempts never append additional timestamps (the window update is
independent of the attempt outcomes and of `retries`). -/
theorem fetch_window_update (kp ku : Bool)
    (att_p : ℕ → HttpAttempt PexelsPhoto) (att_u : ℕ → HttpAttempt UnsplashPhoto)
    (window : List ℤ) (now : ℤ) (count retries : ℕ) :
    (fetch_images_from_pexels kp att_p window now count retries).2 =
      (if kp then
        (if MAX_CALLS_PER_MINUTE ≤ (window.filter (fun t => now - t < 60)).length
          then window.filter (fun t => now - t < 60)
          else window.filter (fun t => now - t < 60) ++ [now])
        else window) ∧
    (fetch_images_from_unsplash ku att_u window now count retries).2 =
      (if ku then
        (if MAX_CALLS_PER_MINUTE ≤ (window.filter (fun t => now - t < 60)).length
          then window.filter (fun t => now - t < 60)
          else window.filter (fun t => now - t < 60) ++ [now])
        else window) := by
  constructor
  · unfold fetch_images_from_pexels can_make_api_call
    cases kp
    · rfl
    · simp only [Bool.not_true, Bool.false_eq_true, if_false, if_true]
      split
      · rfl
      · rfl
  · unfold fetch_images_from_unsplash can_make_api_call
    cases ku
    · rfl
    · simp only [Bool.not_true, Bool.false_eq_true, if_false, if_true]
      split
      · rfl
      · rfl

/-! ### Claim C7 -/

theorem provider_attempt_loop_cons {Photo : Type}
    (normalize : Photo → ImageDict) (count : ℕ)
    (attempts : ℕ → HttpAttempt Photo) (retries : ℕ) (i : ℕ)
    (rest : List ℕ) :
    provider_attempt_loop normalize count attempts retries (i :: rest) =
      (match attempts i with
        | HttpAttempt.resp status photos =>
            if status = 200 then
              if 0 < photos.length then (photos.take count).map normalize
              else []
            else if status = 429 then
              if i < retries - 1 then
                provider_attempt_loop normalize count attempts retries rest
              else []
            else []
        | HttpAttempt.timeout =>
            if i < retries - 1 then
              provider_attempt_loop normalize count attempts retries rest
            else []
        | HttpAttempt.exn => []) := rfl

theorem provider_attempt_loop_cons_429 {Photo : Type}
    (normalize : Photo → ImageDict) (count : ℕ)
    (attempts : ℕ → HttpAttempt Photo) (retries : ℕ) (i : ℕ) (rest : List ℕ)
    (ph : List Photo) (h : attempts i = HttpAttempt.resp 429 ph)
    (hlt : i < retries - 1) :
    provider_attempt_loop normalize count attempts retries (i :: rest) =
      provider_attempt_loop normalize count attempts retries rest := by
  rw [provider_attempt_loop_cons, h]
  simp only [hlt, if_true]
  rw [if_neg (by norm_num : ¬ (429 = 200))]

theorem provider_attempt_loop_cons_timeout {Photo : Type}
    (normalize : Photo → ImageDict) (count : ℕ)
    (attempts : ℕ → HttpAttempt Photo) (retries : ℕ) (i : ℕ) (rest : List ℕ)
    (h : attempts i = HttpAttempt.timeout) (hlt : i < retries - 1) :
    provider_attempt_loop normalize count attempts retries (i :: rest) =
      provider_attempt_loop normalize count attempts retries rest := by
  rw [provider_attempt_loop_cons, h]
  simp only [hlt, if_true]

theorem provider_attempt_loop_cons_200 {Photo : Type}
    (normalize : Photo → ImageDict) (count : ℕ)
    (attempts : ℕ → HttpAttempt Photo) (retries : ℕ) (i : ℕ) (rest : List ℕ)
    (ph : List Photo) (h : attempts i = HttpAttempt.resp 200 ph)
    (hne : 0 < ph.length) :
    provider_attempt_loop normalize count attempts retries (i :: rest) =
      (ph.take count).map normalize := by
  rw [provider_attempt_loop_cons, h]
  simp only [hne, if_true]

theorem provider_attempt_loop_cons_other {Photo : Type}
    (normalize : Photo → ImageDict) (count : ℕ)
    (attempts : ℕ → HttpAttempt Photo) (retries : ℕ) (i : ℕ) (rest : List ℕ)
    (s : ℕ) (ph : List Photo) (h : attempts i = HttpAttempt.resp s ph)
    (hs200 : s ≠ 200) (hs429 : s ≠ 429) :
    provider_attempt_loop normalize count attempts retries (i :: rest) = [] := by
  rw [provider_attempt_loop_cons, h]
  simp only [hs200, hs429, if_false]

theorem can_make_api_call_fst_true (window : List ℤ) (now : ℤ)
    (h : (window.filter (fun t => now - t < 60)).length < MAX_CALLS_PER_MINUTE) :
    can_make_api_call window now = (true, window.filter (fun t => now - t < 60) ++ [now]) := by
  unfold can_make_api_call
  simp only
  rw [if_neg (not_le.mpr h)]

theorem fetch_pexels_pass_budget (attempts : ℕ → HttpAttempt PexelsPhoto)
    (window : List ℤ) (now : ℤ) (count retries : ℕ)
    (h : (window.filter (fun t => now - t < 60)).length < MAX_CALLS_PER_MINUTE) :
    (fetch_images_from_pexels true attempts window now count retries).1 =
      provider_attempt_loop normalize_pexels count attempts retries
        (List.range retries) := by
  unfold fetch_images_from_pexels
  simp only [Bool.not_true, Bool.false_eq_true, if_false,
    can_make_api_call_fst_true window now h]

/-- Claim C7 (counterexample): the claim says a timeout returns the empty
list without retrying; in the code (app.py:2321-2324) a timeout falls
through to the next attempt exactly like a 429.  With `retries=2`, a timeout
on attempt 1 and a 200-with-one-photo on attempt 2, the fetch returns that
candidate instead of the empty list. -/
theorem timeout_is_retried_counterexample :
    (fetch_images_from_pexels true
      (fun i => if i = 0 then HttpAttempt.timeout
        else HttpAttempt.resp 200 [⟨"https://img/a.jpg", "Alice", none⟩])
      [] 0 1 2).1 =
      [normalize_pexels ⟨"https://img/a.jpg", "Alice", none⟩] := by
  decide

/-- Claim C7 (amended): under an open rate budget with `retries = 2`, the
Pexels fetcher retries after a 429 — a 429 on attempt 1 followed by a 200
with one photo on attempt 2 yields that one normalized candidate — and it
retries after a timeout in exactly the same way, while any other non-200
status on attempt 1 returns the empty list without a second attempt. -/
theorem fetch_retry_behavior :
    (∀ (p : PexelsPhoto) (ph0 : List PexelsPhoto)
        (attempts : ℕ → HttpAttempt PexelsPhoto) (window : List ℤ) (now : ℤ),
      (window.filter (fun t => now - t < 60)).length < MAX_CALLS_PER_MINUTE →
      attempts 0 = HttpAttempt.resp 429 ph0 →
      attempts 1 = HttpAttempt.resp 200 [p] →
      (fetch_images_from_pexels true attempts window now 1 2).1 =
        [normalize_pexels p]) ∧
    (∀ (p : PexelsPhoto) (attempts : ℕ → HttpAttempt PexelsPhoto)
        (window : List ℤ) (now : ℤ),
      (window.filter (fun t => now - t < 60)).length < MAX_CALLS_PER_MINUTE →
      attempts 0 = HttpAttempt.timeout →
      attempts 1 = HttpAttempt.resp 200 [p] →
      (fetch_images_from_pexels true attempts window now 1 2).1 =
        [normalize_pexels p]) ∧
    (∀ (s : ℕ) (ph : List PexelsPhoto)
        (attempts : ℕ → HttpAttempt PexelsPhoto) (window : List ℤ) (now : ℤ),
      s ≠ 200 → s ≠ 429 → attempts 0 = HttpAttempt.resp s ph →
      (fetch_images_from_pexels true attempts window now 1 2).1 = []) := by
  refine ⟨?_, ?_, ?_⟩
  · intro p ph0 attempts window now hbudget h0 h1
    rw [fetch_pexels_pass_budget attempts window now 1 2 hbudget]
    have hr : List.range 2 = [0, 1] := by decide
    rw [hr, provider_attempt_loop_cons_429 normalize_pexels 1 attempts 2 0 [1]
      ph0 h0 (by decide),
      provider_attempt_loop_cons_200 normalize_pexels 1 attempts 2 1 [] [p] h1
      (by simp)]
    rfl
  · intro p attempts window now hbudget h0 h1
    rw [fetch_pexels_pass_budget attempts window now 1 2 hbudget]
    have hr : List.range 2 = [0, 1] := by decide
    rw [hr, provider_attempt_loop_cons_timeout normalize_pexels 1 attempts 2 0
      [1] h0 (by decide),
      provider_attempt_loop_cons_200 normalize_pexels 1 attempts 2 1 [] [p] h1
      (by simp)]
    rfl
  · intro s ph attempts window now hs200 hs429 h0
    unfold fetch_images_from_pexels
    simp only [Bool.not_true, Bool.false_eq_true, if_false]
    rcases hcw : can_make_api_call window now with ⟨ok, w⟩
    cases ok
    · rfl
    · simp only [Bool.not_true, Bool.false_eq_true, if_false]
      have hr : List.range 2 = [0, 1] := by decide
      rw [hr, provider_attempt_loop_cons_other normalize_pexels 1 attempts 2 0
        [1] s ph h0 hs200 hs429]

/-- Witness for the amended C7: the three behaviors at concrete attempt
oracles. -/
theorem fetch_retry_behavior_witness :
    ((fetch_images_from_pexels true
        (fun i => if i = 0 then HttpAttempt.resp 429 []
          else HttpAttempt.resp 200 [⟨"https://img/b.jpg", "Bob", none⟩])
        [] 0 1 2).1 =
      [normalize_pexels ⟨"https://img/b.jpg", "Bob", none⟩]) ∧
    ((fetch_images_from_pexels true
        (fun i => if i = 0 then HttpAttempt.timeout
          else HttpAttempt.resp 200 [⟨"https://img/c.jpg", "Carol", none⟩])
        [] 0 1 2).1 =
      [normalize_pexels ⟨"https://img/c.jpg", "Carol", none⟩]) ∧
    ((fetch_images_from_pexels true (fun _ => HttpAttempt.resp 500 [])
        [] 0 1 2).1 = []) := by
  refine ⟨?_, ?_, ?_⟩
  · exact fetch_retry_behavior.1 ⟨"https://img/b.jpg", "Bob", none⟩ []
      (fun i => if i = 0 then HttpAttempt.resp 429 []
        else HttpAttempt.resp 200 [⟨"https://img/b.jpg", "Bob", none⟩])
      [] 0 (by decide) rfl rfl
  · exact fetch_retry_behavior.2.1 ⟨"https://img/c.jpg", "Carol", none⟩
      (fun i => if i = 0 then HttpAttempt.timeout
        else HttpAttempt.resp 200 [⟨"https://img/c.jpg", "Carol", none⟩])
      [] 0 (by decide) rfl rfl
  · exact fetch_retry_behavior.2.2 500 [] (fun _ => HttpAttempt.resp 500 [])
      [] 0 (by decide) (by decide) rfl

/-! ### Translation layer (app.py) -/

/-- Python `str.strip()`: drop leading and trailing whitespace.  (Defined
structurally on the character list so it evaluates; `String.trim` matches it
on ASCII whitespace.) -/
def pyStrip (s : String) : String :=
  String.mk
    (((s.data.dropWhile Char.isWhitespace).reverse.dropWhile
      Char.isWhitespace).reverse)

/-- app.py:38 — `CYRILLIC_RE = re.compile('[а-яА-Я]')`: does the text
contain a character in either Cyrillic range? -/
def hasCyrillic (s : String) : Bool :=
  s.data.any (fun c =>
    decide (('а' ≤ c ∧ c ≤ 'я') ∨ ('А' ≤ c ∧ c ≤ 'Я')))

/-- Translation configuration (app.py:203-209) together with the process
cache `TRANSLATION_CACHE` (app.py:37), modelled as an insertion-ordered
association list. -/
structure TranslationConfig where
  enabled : Bool
  provider : String
  target_lang : String
  cache : List (String × String)
deriving DecidableEq, Repr

/-- `cache_key in TRANSLATION_CACHE` / `TRANSLATION_CACHE[cache_key]`. -/
def lookupCache (cache : List (String × String)) (key : String) :
    Option String :=
  (cache.find? (fun p => p.1 = key)).map (fun p => p.2)

/-- `TRANSLATION_CACHE[cache_key] = translated` (dict assignment). -/
def storeCache (cache : List (String × String)) (key value : String) :
    List (String × String) :=
  if cache.any (fun p => p.1 = key) then
    cache.map (fun p => if p.1 = key then (key, value) else p)
  else cache ++ [(key, value)]

/-- Result of one `translate_for_image_search` call: the returned text,
whether a translation backend (`libre_translate` / `external_translate`)
was invoked, and the updated cache. -/
structure TranslationResult where
  text : String
  backend_called : Bool
  cache : List (String × String)
deriving DecidableEq, Repr

/-- The auto-detected or supplied source language (app.py:1269-1270),
computed on the stripped text. -/
def effective_source_lang (text : String) (source_lang : Option String) :
    String :=
  match source_lang with
  | some l => l
  | none => if hasCyrillic (pyStrip text) then "ru" else "en"

/-- app.py:1239-1321 — `translate_for_image_search`.  The two backends are
oracles taking `(text, target, source)`; both already degrade to the
original text internally on any failure, so they are total here. -/
def translate_for_image_search (cfg : TranslationConfig)
    (libre_tr external_tr : String → String → String → String)
    (text : String) (source_lang : Option String) (context : String) :
    TranslationResult :=
  if pyStrip text = "" then ⟨"", false, cfg.cache⟩
  else
    let t := pyStrip text
    let src := effective_source_lang text source_lang
    if ! cfg.enabled then ⟨t, false, cfg.cache⟩
    else if src = cfg.target_lang then ⟨t, false, cfg.cache⟩
    else
      let cache_key := (context ++ "|" ++ t).toLower
      match lookupCache cfg.cache cache_key with
      | some cached => ⟨cached, false, cfg.cache⟩
      | none =>
          let routed :=
            if cfg.provider = "none" then (t, false)
            else if cfg.provider = "libre" then
              (libre_tr t cfg.target_lang src, true)
            else if cfg.provider = "external" then
              (external_tr t cfg.target_lang src, true)
            else (t, false)
          if routed.1 ≠ "" ∧ routed.1 ≠ t then
            ⟨routed.1, routed.2, storeCache cfg.cache cache_key routed.1⟩
          else ⟨routed.1, routed.2, cfg.cache⟩

/-! ### Claim C6 -/

/-- Claim C6 (counterexample): with translation disabled, the input
`" dog "` comes back as `"dog"` — `text.strip()` (app.py:1266) runs before
every early return, so the function is not the identity on inputs with
surrounding whitespace. -/
theorem translate_disabled_strips_counterexample :
    (translate_for_image_search ⟨false, "none", "en", []⟩
        (fun t _ _ => t) (fun t _ _ => t) " dog " (some "en") "").text ≠
      " dog " := by
  decide

/-- Claim C6 (amended): whenever translation is globally disabled, or the
supplied/auto-detected source language equals the configured target, or the
provider is `none` and the cache has no entry for the `(context, text)` key,
`translate_for_image_search` returns the stripped input text (the empty
string for whitespace-only input) — so it is the identity exactly on
already-stripped text — and calls no translation backend. -/
theorem translate_no_backend_returns_stripped (cfg : TranslationConfig)
    (libre_tr external_tr : String → String → String → String)
    (text : String) (source_lang : Option String) (context : String)
    (hcase : cfg.enabled = false ∨
      effective_source_lang text source_lang = cfg.target_lang ∨
      (cfg.provider = "none" ∧
        lookupCache cfg.cache ((context ++ "|" ++ pyStrip text).toLower) = none)) :
    (translate_for_image_search cfg libre_tr external_tr text source_lang
        context).text = (if pyStrip text = "" then "" else pyStrip text) ∧
    (translate_for_image_search cfg libre_tr external_tr text source_lang
        context).backend_called = false := by
  unfold translate_for_image_search
  by_cases hblank : pyStrip text = ""
  · rw [if_pos hblank, if_pos hblank]
    exact ⟨rfl, rfl⟩
  · have hb' : (pyStrip text = "") = False := eq_false hblank
    rcases hen : cfg.enabled with _ | _
    · simp only [hb', if_false, hen, Bool.not_false, if_true]
      refine ⟨?_, ?_⟩ <;> trivial
    · by_cases hsrc : effective_source_lang text source_lang = cfg.target_lang
      · simp only [hb', if_false, hen, Bool.not_true, Bool.false_eq_true,
          hsrc, if_true]
        refine ⟨?_, ?_⟩ <;> trivial
      · have hthird : cfg.provider = "none" ∧
            lookupCache cfg.cache ((context ++ "|" ++ pyStrip text).toLower) =
              none := by
          rcases hcase with h | h | h
          · rw [hen] at h
            exact absurd h (by decide)
          · exact absurd h hsrc
          · exact h
        simp only [hb', if_false, hen, Bool.not_true, Bool.false_eq_true,
          hsrc, hthird.1, hthird.2, ne_eq, not_true_eq_false, and_false,
          if_true]
        refine ⟨?_, ?_⟩ <;> trivial

/-- Witness for the amended C6: the spec's Scenario B input with translation
disabled (the default configuration) comes back stripped — here unchanged,
since it carries no surrounding whitespace — with no backend call. -/
theorem translate_no_backend_returns_stripped_witness :
    (translate_for_image_search ⟨false, "none", "en", []⟩
        (fun t _ _ => t) (fun t _ _ => t) "dog evolution wolf domestication"
        (some "en") "").text =
      (if pyStrip "dog evolution wolf domestication" = "" then ""
        else pyStrip "dog evolution wolf domestication") ∧
    (translate_for_image_search ⟨false, "none", "en", []⟩
        (fun t _ _ => t) (fun t _ _ => t) "dog evolution wolf domestication"
        (some "en") "").backend_called = false := by
  exact translate_no_backend_returns_stripped ⟨false, "none", "en", []⟩
    (fun t _ _ => t) (fun t _ _ => t) "dog evolution wolf domestication"
    (some "en") "" (Or.inl rfl)

/-! ### Unified provider strategy and the pipelines' candidate acquisition
(app.py) -/

/-- app.py:180-182 — `CLIP_MIN_CANDIDATES = int(os.getenv('CLIP_MIN_CANDIDATES', '8'))`:
the default minimum-candidate floor. -/
def CLIP_MIN_CANDIDATES : ℕ := 8

/-- The two per-provider rate-limit windows `API_CALL_TIMES`. -/
structure RateState where
  pexels : List ℤ
  unsplash : List ℤ
deriving DecidableEq, Repr

/-- HTTP outcome oracles for one `get_images` invocation (each provider may
be hit once). -/
structure CallOracle where
  pex : ℕ → HttpAttempt PexelsPhoto
  uns : ℕ → HttpAttempt UnsplashPhoto

/-- app.py:2421-2465 — `get_images(query, count, mode)`: `unsplash`-only,
`pexels`-only, or (default `mixed`) Pexels first with Unsplash fallback when
Pexels returns nothing.  Fetchers are called with their default
`retries=2`. -/
def get_images (pexKey unsKey : Bool) (o : CallOracle) (st : RateState)
    (now : ℤ) (count : ℕ) (mode : String) : List ImageDict × RateState :=
  if mode = "unsplash" then
    let r := fetch_images_from_unsplash unsKey o.uns st.unsplash now count 2
    (r.1, { st with unsplash := r.2 })
  else if mode = "pexels" then
    let r := fetch_images_from_pexels pexKey o.pex st.pexels now count 2
    (r.1, { st with pexels := r.2 })
  else
    let r := fetch_images_from_pexels pexKey o.pex st.pexels now count 2
    if r.1.isEmpty then
      let r2 := fetch_images_from_unsplash unsKey o.uns st.unsplash now count 2
      (r2.1, { pexels := r.2, unsplash := r2.2 })
    else (r.1, { st with pexels := r.2 })

theorem provider_attempt_loop_length_le {Photo : Type}
    (normalize : Photo → ImageDict) (count : ℕ)
    (attempts : ℕ → HttpAttempt Photo) (retries : ℕ) :
    ∀ idxs : List ℕ,
      (provider_attempt_loop normalize count attempts retries idxs).length ≤
        count := by
  intro idxs
  induction idxs with
  | nil => simp [provider_attempt_loop]
  | cons i rest ih =>
      rw [provider_attempt_loop_cons]
      rcases attempts i with _ | _ | ⟨s, ph⟩
      · simp only
        split
        · exact ih
        · simp
      · simp
      · simp only
        split
        · split
          · simp only [List.length_map]
            exact le_trans (List.length_take_le _ _) (le_refl _)
          · simp
        · split
          · split
            · exact ih
            · simp
          · simp

theorem fetch_pexels_length_le (key : Bool)
    (attempts : ℕ → HttpAttempt PexelsPhoto) (window : List ℤ) (now : ℤ)
    (count retries : ℕ) :
    (fetch_images_from_pexels key attempts window now count retries).1.length ≤
      count := by
  unfold fetch_images_from_pexels
  split
  · simp
  · dsimp only
    split
    · simp
    · exact provider_attempt_loop_length_le _ _ _ _ _

theorem fetch_unsplash_length_le (key : Bool)
    (attempts : ℕ → HttpAttempt UnsplashPhoto) (window : List ℤ) (now : ℤ)
    (count retries : ℕ) :
    (fetch_images_from_unsplash key attempts window now count retries).1.length ≤
      count := by
  unfold fetch_images_from_unsplash
  split
  · simp
  · dsimp only
    split
    · simp
    · exact provider_attempt_loop_length_le _ _ _ _ _

theorem get_images_length_le (pexKey unsKey : Bool) (o : CallOracle)
    (st : RateState) (now : ℤ) (count : ℕ) (mode : String) :
    (get_images pexKey unsKey o st now count mode).1.length ≤ count := by
  unfold get_images
  split
  · exact fetch_unsplash_length_le _ _ _ _ _ _
  · split
    · exact fetch_pexels_length_le _ _ _ _ _ _
    · simp only
      split
      · exact fetch_unsplash_length_le _ _ _ _ _ _
      · exact fetch_pexels_length_le _ _ _ _ _ _

/-- app.py:2746-2761 (legacy) and 3026-3041 (advanced) — candidate
acquisition shared verbatim by both pipelines: fetch up to
`candidate_count = 6` candidates for the built query, fall back to the slide
title if none, then empty the list when it is non-empty but smaller than
`CLIP_MIN_CANDIDATES`. -/
def pipeline_clip_candidates (pexKey unsKey : Bool) (o1 o2 : CallOracle)
    (st : RateState) (now1 now2 : ℤ) (mode : String) : List ImageDict :=
  let r1 := get_images pexKey unsKey o1 st now1 6 mode
  let c2 :=
    if r1.1.isEmpty then (get_images pexKey unsKey o2 r1.2 now2 6 mode).1
    else r1.1
  if ! c2.isEmpty ∧ c2.length < CLIP_MIN_CANDIDATES then [] else c2

/-- Which branch of `search_image_legacy_mode` (app.py:2746-2845) /
`search_image_advanced_mode` (app.py:3022-3133) produces the image. -/
inductive SearchBranch where
  | clipRanking
  | keywordFallback
deriving DecidableEq, Repr

/-- app.py:2746-2829 / 3022-3116 — both pipelines enter the CLIP
semantic-ranking branch exactly when the (floor-checked) candidate list is
non-empty; otherwise they fall through to the keyword search
(`search_image_with_fallback`). -/
def search_image_mode_branch (clip_available : Bool) (pexKey unsKey : Bool)
    (o1 o2 : CallOracle) (st : RateState) (now1 now2 : ℤ) (mode : String) :
    SearchBranch :=
  if ! clip_available then SearchBranch.keywordFallback
  else if (pipeline_clip_candidates pexKey unsKey o1 o2 st now1 now2
      mode).isEmpty then
    SearchBranch.keywordFallback
  else SearchBranch.clipRanking

/-! ### Claim C9 -/

/-- Claim C9: under the default configuration both pipelines request at most
6 candidates while `CLIP_MIN_CANDIDATES` defaults to 8, so the floor check
always empties the candidate list and the CLIP semantic-ranking branch is
never executed — for every provider key configuration, every HTTP outcome,
every rate-limit state and every provider mode, the selected image comes
from the keyword-search fallback. -/
theorem default_config_clip_branch_never_runs (clip_available : Bool)
    (pexKey unsKey : Bool) (o1 o2 : CallOracle) (st : RateState)
    (now1 now2 : ℤ) (mode : String) :
    pipeline_clip_candidates pexKey unsKey o1 o2 st now1 now2 mode = [] ∧
    search_image_mode_branch clip_available pexKey unsKey o1 o2 st now1 now2
      mode = SearchBranch.keywordFallback := by
  have hempty :
      pipeline_clip_candidates pexKey unsKey o1 o2 st now1 now2 mode = [] := by
    unfold pipeline_clip_candidates
    simp only
    set c2 :=
      if (get_images pexKey unsKey o1 st now1 6 mode).1.isEmpty then
        (get_images pexKey unsKey o2
          (get_images pexKey unsKey o1 st now1 6 mode).2 now2 6 mode).1
      else (get_images pexKey unsKey o1 st now1 6 mode).1 with hc2
    have hlen : c2.length ≤ 6 := by
      rw [hc2]
      split
      · exact get_images_length_le _ _ _ _ _ _ _
      · exact get_images_length_le _ _ _ _ _ _ _
    by_cases hne : c2.isEmpty
    · rw [if_neg]
      · exact List.isEmpty_iff.mp hne
      · intro hcon
        rw [hne] at hcon
        exact absurd hcon.1 (by decide)
    · rw [if_pos]
      constructor
      · simp [hne]
      · calc c2.length ≤ 6 := hlen
          _ < CLIP_MIN_CANDIDATES := by norm_num [CLIP_MIN_CANDIDATES]
  refine ⟨hempty, ?_⟩
  unfold search_image_mode_branch
  cases clip_available
  · rfl
  · rw [hempty]
    rfl

/-! ### Used-images tracking (app.py)

The `used_images` SQLite table is modelled as a list of rows; `id` is the
integer primary key (unique across the table) and `used_date` the insertion
timestamp.  `ORDER BY used_date DESC` is modelled by sorting with the
relation `byDateDesc`; the claims are proved under the hypothesis that the
user's timestamps are pairwise distinct, which makes that order
unambiguous. -/

structure UsedImageRow where
  id : ℕ
  user_id : ℕ
  image_url : String
  image_query : String
  used_date : ℤ
deriving DecidableEq, Repr

/-- `ORDER BY used_date DESC`. -/
def byDateDesc (a b : UsedImageRow) : Prop := b.used_date ≤ a.used_date

instance : DecidableRel byDateDesc :=
  fun a b => inferInstanceAs (Decidable (b.used_date ≤ a.used_date))

instance : IsTotal UsedImageRow byDateDesc :=
  ⟨fun a b => le_total b.used_date a.used_date⟩

instance : IsTrans UsedImageRow byDateDesc :=
  ⟨fun _ _ _ h1 h2 => le_trans h2 h1⟩

/-- `WHERE user_id = ?`. -/
def user_rows (table : List UsedImageRow) (u : ℕ) : List UsedImageRow :=
  table.filter (fun r => r.user_id = u)

/-- The subquery of app.py:2219-2223:
`SELECT id FROM used_images WHERE user_id = ? ORDER BY used_date DESC
LIMIT ?`. -/
def keep_ids (table : List UsedImageRow) (u : ℕ) (keep_count : ℕ) :
    List ℕ :=
  (((user_rows table u).insertionSort byDateDesc).take keep_count).map
    (fun r => r.id)

/-- app.py:2141-2170 — `get_used_images_for_user`: the user's rows ordered
by `used_date DESC`, limited, projected to URLs.  `if not user_id` is
modelled by `Option`. -/
def get_used_images_for_user (table : List UsedImageRow)
    (user_id : Option ℕ) (limit : ℕ := 100) : List String :=
  match user_id with
  | none => []
  | some u =>
      (((user_rows table u).insertionSort byDateDesc).take limit).map
        (fun r => r.image_url)

/-- app.py:2199-2235 — `cleanup_old_used_images`: delete the user's rows
whose id is not among the `keep_count` most recent
(`DELETE ... WHERE user_id = ? AND id NOT IN (SELECT ...)`). -/
def cleanup_old_used_images (table : List UsedImageRow)
    (user_id : Option ℕ) (keep_count : ℕ := 100) : List UsedImageRow :=
  match user_id with
  | none => table
  | some u =>
      table.filter
        (fun r => decide (r.user_id ≠ u) ||
          decide (r.id ∈ keep_ids table u keep_count))

theorem user_rows_cleanup (table : List UsedImageRow) (u k : ℕ) :
    user_rows (cleanup_old_used_images table (some u) k) u =
      (user_rows table u).filter
        (fun r => r.id ∈ keep_ids table u k) := by
  unfold cleanup_old_used_images user_rows
  rw [List.filter_filter, List.filter_filter]
  apply List.filter_congr
  intro r _
  by_cases hr : r.user_id = u <;> simp [hr]

theorem filter_take_drop_eq {α : Type} (p : α → Bool) (l : List α) (k : ℕ)
    (h1 : ∀ x ∈ l.take k, p x = true) (h2 : ∀ x ∈ l.drop k, p x = false) :
    l.filter p = l.take k := by
  conv_lhs => rw [← List.take_append_drop k l]
  rw [List.filter_append, List.filter_eq_self.mpr h1,
    List.filter_eq_nil_iff.mpr (fun x hx => by rw [h2 x hx]; exact (by decide)),
    List.append_nil]

theorem sorted_user_ids_nodup (table : List UsedImageRow) (u : ℕ)
    (hids : (table.map (fun r => r.id)).Nodup) :
    (((user_rows table u).insertionSort byDateDesc).map
      (fun r => r.id)).Nodup := by
  have h1 : (user_rows table u).Sublist table := List.filter_sublist _
  have h2 : ((user_rows table u).map (fun r => r.id)).Sublist
      (table.map (fun r => r.id)) := h1.map _
  have h3 : ((user_rows table u).map (fun r => r.id)).Nodup :=
    List.Nodup.sublist h2 hids
  exact (((List.perm_insertionSort byDateDesc (user_rows table u)).map
    (fun r => r.id)).nodup_iff).mpr h3

theorem sorted_take_drop_id_disjoint (table : List UsedImageRow) (u k : ℕ)
    (hids : (table.map (fun r => r.id)).Nodup) :
    ∀ x ∈ ((user_rows table u).insertionSort byDateDesc).drop k,
      x.id ∉ keep_ids table u k := by
  intro x hx hmem
  have hnd := sorted_user_ids_nodup table u hids
  have hmap : ((user_rows table u).insertionSort byDateDesc).map
      (fun r => r.id) =
      (((user_rows table u).insertionSort byDateDesc).take k).map
        (fun r => r.id) ++
      (((user_rows table u).insertionSort byDateDesc).drop k).map
        (fun r => r.id) := by
    rw [← List.map_append, List.take_append_drop]
  rw [hmap] at hnd
  rcases List.nodup_append.mp hnd with ⟨_, _, hdisj⟩
  exact hdisj hmem (List.mem_map_of_mem _ hx)

theorem kept_perm_take (table : List UsedImageRow) (u k : ℕ)
    (hids : (table.map (fun r => r.id)).Nodup) :
    (user_rows (cleanup_old_used_images table (some u) k) u).Perm
      (((user_rows table u).insertionSort byDateDesc).take k) := by
  rw [user_rows_cleanup]
  have hperm :
      ((user_rows table u).filter
        (fun r => decide (r.id ∈ keep_ids table u k))).Perm
      (((user_rows table u).insertionSort byDateDesc).filter
        (fun r => decide (r.id ∈ keep_ids table u k))) :=
    List.Perm.filter _ (List.perm_insertionSort byDateDesc _).symm
  have heq : (((user_rows table u).insertionSort byDateDesc).filter
      (fun r => decide (r.id ∈ keep_ids table u k))) =
      ((user_rows table u).insertionSort byDateDesc).take k := by
    apply filter_take_drop_eq
    · intro x hx
      simp only [decide_eq_true_eq]
      exact List.mem_map_of_mem _ hx
    · intro x hx
      simp only [decide_eq_false_iff_not]
      exact sorted_take_drop_id_disjoint table u k hids x hx
  rw [heq] at hperm
  exact hperm

theorem kept_length (table : List UsedImageRow) (u k : ℕ)
    (hids : (table.map (fun r => r.id)).Nodup)
    (hcount : k ≤ (user_rows table u).length) :
    (user_rows (cleanup_old_used_images table (some u) k) u).length = k := by
  rw [(kept_perm_take table u k hids).length_eq, List.length_take,
    (List.perm_insertionSort byDateDesc (user_rows table u)).length_eq]
  exact min_eq_left hcount

theorem deleted_older_than_kept (table : List UsedImageRow) (u k : ℕ)
    (hids : (table.map (fun r => r.id)).Nodup)
    (hdates : (user_rows table u).Pairwise
      (fun a b => a.used_date ≠ b.used_date)) :
    ∀ kpt ∈ user_rows (cleanup_old_used_images table (some u) k) u,
    ∀ d ∈ table, d.user_id = u →
      d ∉ cleanup_old_used_images table (some u) k →
      d.used_date < kpt.used_date := by
  intro kpt hk d hd hdu hdc
  set s := (user_rows table u).insertionSort byDateDesc with hs
  have hkeq : keep_ids table u k = (s.take k).map (fun r => r.id) := by
    rw [hs]
    rfl
  have hkt : kpt ∈ s.take k := (kept_perm_take table u k hids).mem_iff.mp hk
  have hdrows : d ∈ user_rows table u :=
    List.mem_filter.mpr ⟨hd, by simp [hdu]⟩
  have hdid : d.id ∉ keep_ids table u k := by
    intro hmem
    apply hdc
    unfold cleanup_old_used_images
    exact List.mem_filter.mpr ⟨hd, by simp [hmem]⟩
  have hds : d ∈ s := (List.perm_insertionSort byDateDesc _).mem_iff.mpr hdrows
  have hdsplit : d ∈ s.take k ++ s.drop k := by
    rw [List.take_append_drop]
    exact hds
  have hddrop : d ∈ s.drop k := by
    rcases List.mem_append.mp hdsplit with h | h
    · exfalso
      apply hdid
      rw [hkeq]
      exact List.mem_map_of_mem _ h
    · exact h
  have hsorted : List.Pairwise byDateDesc s :=
    List.sorted_insertionSort byDateDesc _
  have hsplit : s = s.take k ++ s.drop k := (List.take_append_drop k s).symm
  rw [hsplit] at hsorted
  rcases List.pairwise_append.mp hsorted with ⟨_, _, hle⟩
  have hdist : List.Pairwise (fun a b : UsedImageRow =>
      a.used_date ≠ b.used_date) s :=
    (List.Perm.pairwise_iff (fun h => h.symm)
      (List.perm_insertionSort byDateDesc _)).mpr hdates
  rw [hsplit] at hdist
  rcases List.pairwise_append.mp hdist with ⟨_, _, hne⟩
  have h1 : byDateDesc kpt d := hle kpt hkt d hddrop
  have h2 : kpt.used_date ≠ d.used_date := hne kpt hkt d hddrop
  exact lt_of_le_of_ne h1 h2.symm

/-! ### Claim C8 -/

/-- Claim C8: for a user with more than 100 recorded used-image rows (with
the primary-key ids unique and the user's timestamps pairwise distinct),
`cleanup_old_used_images` with `keep_count = 100` leaves exactly 100 of the
user's rows; every deleted row of the user is strictly older than every
kept row (so exactly the 100 most recent remain); the per-user exclusion
query then returns exactly those remaining rows ordered by recency
(`used_date` descending); and rows of other users are untouched. -/
theorem cleanup_keeps_most_recent (table : List UsedImageRow) (u : ℕ)
    (hids : (table.map (fun r => r.id)).Nodup)
    (hdates : (user_rows table u).Pairwise
      (fun a b => a.used_date ≠ b.used_date))
    (hcount : 100 < (user_rows table u).length) :
    (user_rows (cleanup_old_used_images table (some u) 100) u).length = 100 ∧
    (∀ kpt ∈ user_rows (cleanup_old_used_images table (some u) 100) u,
      ∀ d ∈ table, d.user_id = u →
        d ∉ cleanup_old_used_images table (some u) 100 →
        d.used_date < kpt.used_date) ∧
    (get_used_images_for_user (cleanup_old_used_images table (some u) 100)
        (some u) 100 =
      ((user_rows (cleanup_old_used_images table (some u) 100)
        u).insertionSort byDateDesc).map (fun r => r.image_url)) ∧
    List.Sorted byDateDesc
      ((user_rows (cleanup_old_used_images table (some u) 100)
        u).insertionSort byDateDesc) ∧
    ((user_rows (cleanup_old_used_images table (some u) 100)
      u).insertionSort byDateDesc).Perm
        (user_rows (cleanup_old_used_images table (some u) 100) u) ∧
    (∀ r ∈ table, r.user_id ≠ u →
      r ∈ cleanup_old_used_images table (some u) 100) ∧
    (∀ r ∈ cleanup_old_used_images table (some u) 100, r ∈ table) := by
  have hlen :
      (user_rows (cleanup_old_used_images table (some u) 100) u).length =
        100 := kept_length table u 100 hids (le_of_lt hcount)
  refine ⟨hlen, deleted_older_than_kept table u 100 hids hdates, ?_, ?_, ?_,
    ?_, ?_⟩
  · unfold get_used_images_for_user
    simp only
    rw [List.take_of_length_le]
    rw [(List.perm_insertionSort byDateDesc _).length_eq, hlen]
  · exact List.sorted_insertionSort byDateDesc _
  · exact List.perm_insertionSort byDateDesc _
  · intro r hr hru
    unfold cleanup_old_used_images
    exact List.mem_filter.mpr ⟨hr, by simp [hru]⟩
  · intro r hr
    unfold cleanup_old_used_images at hr
    exact (List.mem_filter.mp hr).1

/-- A user's history of 101 rows with distinct ids and timestamps. -/
def demoTable : List UsedImageRow :=
  (List.range 101).map (fun n =>
    { id := n, user_id := 1, image_url := "", image_query := "",
      used_date := (n : ℤ) })

/-- Witness for C8: the claim instantiated on a concrete 101-row history. -/
theorem cleanup_keeps_most_recent_witness :
    (user_rows (cleanup_old_used_images demoTable (some 1) 100) 1).length =
      100 ∧
    (∀ kpt ∈ user_rows (cleanup_old_used_images demoTable (some 1) 100) 1,
      ∀ d ∈ demoTable, d.user_id = 1 →
        d ∉ cleanup_old_used_images demoTable (some 1) 100 →
        d.used_date < kpt.used_date) ∧
    (get_used_images_for_user (cleanup_old_used_images demoTable (some 1) 100)
        (some 1) 100 =
      ((user_rows (cleanup_old_used_images demoTable (some 1) 100)
        1).insertionSort byDateDesc).map (fun r => r.image_url)) ∧
    List.Sorted byDateDesc
      ((user_rows (cleanup_old_used_images demoTable (some 1) 100)
        1).insertionSort byDateDesc) ∧
    ((user_rows (cleanup_old_used_images demoTable (some 1) 100)
      1).insertionSort byDateDesc).Perm
        (user_rows (cleanup_old_used_images demoTable (some 1) 100) 1) ∧
    (∀ r ∈ demoTable, r.user_id ≠ 1 →
      r ∈ cleanup_old_used_images demoTable (some 1) 100) ∧
    (∀ r ∈ cleanup_old_used_images demoTable (some 1) 100, r ∈ demoTable) := by
  exact cleanup_keeps_most_recent demoTable 1 (by decide) (by decide)
    (by decide)
